import Mathlib

/-! Verification of the vertex execution core of a dataflow graph runtime
(`langflow/graph/vertex/types.py`): the vertex build/result lifecycle, the
edge-based result-resolution protocol between a producer and its consumers,
normalization of heterogeneous build outputs, the chat/record artifact paths
and the streaming-output path.

Python values are embedded as the inductive `PyVal`; Python dictionaries are
association lists kept in insertion order (matching Python dict semantics:
updating an existing key keeps its position, a new key is appended). Fallible
operations return `Except`/`Option`. Classes the source file imports from
elsewhere in the repository (`Record`, `ChatOutputResponse`,
`RecordOutputResponse`, `serialize_field`, `unescape_string`, `add_result`,
`_finalize_build`, `INPUT_FIELD_NAME`) are modelled from the spec, each
marked `Modelled from the spec:` in its doc comment. -/

namespace Langflow

/-! ## JSON values and Python-style `json.dumps(..., indent=4)`

`dict_to_codeblock` renders a dict with `json.dumps(serialized, indent=4)`.
Python's `json.dumps` defaults apply: `ensure_ascii=True` (every character
outside printable ASCII is emitted as a `\u` escape, astral characters as a
surrogate pair) and, with an indent, separators `","` and `": "`. Numbers are
integers: the field serializer is modelled to produce JSON-safe values
without floating point. -/

/-- A JSON value: the shape `json.dumps` consumes and a JSON parse yields. -/
inductive JValue where
  | null
  | bool (b : Bool)
  | int (n : Int)
  | str (s : String)
  | arr (xs : List JValue)
  | obj (kvs : List (String × JValue))

/-- `n` space characters. -/
def spaces : Nat → List Char
  | 0 => []
  | n + 1 => ' ' :: spaces n

/-- Lowercase hex digit for `n < 16`. -/
def hexDigitChar (n : Nat) : Char :=
  if n < 10 then Char.ofNat ('0'.toNat + n) else Char.ofNat ('a'.toNat + (n - 10))

/-- Four lowercase hex digits of `n % 0x10000`, most significant first. -/
def hex4Chars (n : Nat) : List Char :=
  [hexDigitChar (n / 4096 % 16), hexDigitChar (n / 256 % 16),
   hexDigitChar (n / 16 % 16), hexDigitChar (n % 16)]

/-- One character as Python's `json.dumps` (with `ensure_ascii=True`) writes
it: the short escapes of `ESCAPE_DCT`, printable ASCII verbatim, everything
else as `\uXXXX` (an astral character as a surrogate pair). -/
def escapeChar (c : Char) : List Char :=
  if c = '"' then ['\\', '"']
  else if c = '\\' then ['\\', '\\']
  else if c = '\n' then ['\\', 'n']
  else if c = '\r' then ['\\', 'r']
  else if c = '\t' then ['\\', 't']
  else if c.toNat = 8 then ['\\', 'b']
  else if c.toNat = 12 then ['\\', 'f']
  else if 0x20 ≤ c.toNat ∧ c.toNat ≤ 0x7E then [c]
  else if c.toNat < 0x10000 then '\\' :: 'u' :: hex4Chars c.toNat
  else
    ('\\' :: 'u' :: hex4Chars (0xD800 + (c.toNat - 0x10000) / 0x400)) ++
    ('\\' :: 'u' :: hex4Chars (0xDC00 + (c.toNat - 0x10000) % 0x400))

/-- A JSON string literal: quote, escaped characters, quote. -/
def quoteString (s : String) : List Char :=
  '"' :: (s.data.flatMap escapeChar ++ ['"'])

/-- Decimal digits of `n`, most significant first. -/
def natDigits (n : Nat) : List Char :=
  if n < 10 then [Char.ofNat ('0'.toNat + n)]
  else natDigits (n / 10) ++ [Char.ofNat ('0'.toNat + n % 10)]
decreasing_by exact Nat.div_lt_self (by omega) (by omega)

/-- An integer as Python prints it: optional minus sign, then decimal digits. -/
def intChars (i : Int) : List Char :=
  if i < 0 then '-' :: natDigits i.natAbs else natDigits i.natAbs

mutual
/-- `json.dumps(v, indent=4)` at nesting level `lvl`, as a character list. -/
def dumpsVal : JValue → Nat → List Char
  | .null, _ => ['n', 'u', 'l', 'l']
  | .bool true, _ => ['t', 'r', 'u', 'e']
  | .bool false, _ => ['f', 'a', 'l', 's', 'e']
  | .int n, _ => intChars n
  | .str s, _ => quoteString s
  | .arr [], _ => ['[', ']']
  | .arr (x :: xs), lvl =>
      '[' :: '\n' :: (spaces (4 * (lvl + 1)) ++ dumpsVal x (lvl + 1) ++
        dumpsItems xs (lvl + 1) ++ '\n' :: (spaces (4 * lvl) ++ [']']))
  | .obj [], _ => ['{', '}']
  | .obj (kv :: kvs), lvl =>
      '{' :: '\n' :: (spaces (4 * (lvl + 1)) ++ quoteString kv.1 ++
        ':' :: ' ' :: (dumpsVal kv.2 (lvl + 1) ++ dumpsMembers kvs (lvl + 1) ++
          '\n' :: (spaces (4 * lvl) ++ ['}'])))
/-- The remaining array items, each preceded by `",\n"` and the indent. -/
def dumpsItems : List JValue → Nat → List Char
  | [], _ => []
  | x :: xs, lvl =>
      ',' :: '\n' :: (spaces (4 * lvl) ++ dumpsVal x lvl ++ dumpsItems xs lvl)
/-- The remaining object members, each preceded by `",\n"` and the indent. -/
def dumpsMembers : List (String × JValue) → Nat → List Char
  | [], _ => []
  | kv :: kvs, lvl =>
      ',' :: '\n' :: (spaces (4 * lvl) ++ quoteString kv.1 ++
        ':' :: ' ' :: (dumpsVal kv.2 lvl ++ dumpsMembers kvs lvl))
end

/-- `json.dumps(v, indent=4)` as a `String`. -/
def json_dumps_indent4 (v : JValue) : String := String.mk (dumpsVal v 0)

/-! ## A JSON parser

A recursive-descent JSON parser (whitespace-insensitive, escapes including
`\uXXXX` and surrogate pairs), used to state that the fenced code block's
content parses back to the serialized mapping. Numbers are integers, matching
the emitted grammar. -/

/-- JSON whitespace. -/
def isJsonWs (c : Char) : Bool := c == ' ' || c == '\n' || c == '\t' || c == '\r'

/-- ASCII decimal digit. -/
def isDigitChar (c : Char) : Bool := '0' ≤ c && c ≤ '9'

/-- Drop leading JSON whitespace. -/
def dropWs : List Char → List Char
  | [] => []
  | c :: cs => if isJsonWs c then dropWs cs else c :: cs

/-- Split off the leading run of decimal digits. -/
def grabDigits : List Char → List Char × List Char
  | [] => ([], [])
  | c :: cs =>
      if isDigitChar c then
        let p := grabDigits cs
        (c :: p.1, p.2)
      else ([], c :: cs)

/-- The number a digit run denotes. -/
def digitsVal (ds : List Char) : Nat :=
  ds.foldl (fun a c => a * 10 + (c.toNat - '0'.toNat)) 0

/-- The value of one hex digit, either case. -/
def hexDigitVal (c : Char) : Option Nat :=
  if '0' ≤ c ∧ c ≤ '9' then some (c.toNat - '0'.toNat)
  else if 'a' ≤ c ∧ c ≤ 'f' then some (c.toNat - 'a'.toNat + 10)
  else if 'A' ≤ c ∧ c ≤ 'F' then some (c.toNat - 'A'.toNat + 10)
  else none

/-- The value of four hex digits. -/
def hex4Val (a b c d : Char) : Option Nat :=
  match hexDigitVal a, hexDigitVal b, hexDigitVal c, hexDigitVal d with
  | some va, some vb, some vc, some vd => some (((va * 16 + vb) * 16 + vc) * 16 + vd)
  | _, _, _, _ => none

/-- The character a one-letter escape stands for. -/
def shortEscape : Char → Option Char
  | 'n' => some '\n'
  | 't' => some '\t'
  | 'r' => some '\r'
  | 'b' => some (Char.ofNat 8)
  | 'f' => some (Char.ofNat 12)
  | '"' => some '"'
  | '/' => some '/'
  | '\\' => some '\\'
  | _ => none

/-- Parse a string body after the opening quote, un-escaping as it goes;
a `\uXXXX` high surrogate must be followed by a low surrogate and the pair
is recombined into one character. -/
def parseStringBody (acc : List Char) : List Char → Option (String × List Char)
  | '"' :: rest => some (String.mk acc.reverse, rest)
  | '\\' :: 'u' :: a :: b :: c :: d :: rest =>
      match hex4Val a b c d with
      | none => none
      | some n =>
        if 0xD800 ≤ n ∧ n ≤ 0xDBFF then
          match rest with
          | '\\' :: 'u' :: e :: f :: g :: h :: rest2 =>
              match hex4Val e f g h with
              | none => none
              | some m =>
                if 0xDC00 ≤ m ∧ m ≤ 0xDFFF then
                  parseStringBody
                    (Char.ofNat (0x10000 + (n - 0xD800) * 0x400 + (m - 0xDC00)) :: acc) rest2
                else none
          | _ => none
        else if 0xDC00 ≤ n ∧ n ≤ 0xDFFF then none
        else parseStringBody (Char.ofNat n :: acc) rest
  | '\\' :: e :: rest =>
      match shortEscape e with
      | some ch => parseStringBody (ch :: acc) rest
      | none => none
  | c :: rest => parseStringBody (c :: acc) rest
  | [] => none

mutual
/-- Parse one JSON value (fuel-bounded recursion; the fuel never runs out on
an input at least as long as the fuel admits, see the round-trip lemmas). -/
def parseValue (fuel : Nat) (cs : List Char) : Option (JValue × List Char) :=
  match fuel with
  | 0 => none
  | fuel + 1 =>
    match dropWs cs with
    | 'n' :: 'u' :: 'l' :: 'l' :: r => some (.null, r)
    | 't' :: 'r' :: 'u' :: 'e' :: r => some (.bool true, r)
    | 'f' :: 'a' :: 'l' :: 's' :: 'e' :: r => some (.bool false, r)
    | '"' :: r =>
        match parseStringBody [] r with
        | some (s, r1) => some (.str s, r1)
        | none => none
    | '[' :: r =>
        match dropWs r with
        | ']' :: r1 => some (.arr [], r1)
        | r1 =>
            match parseItems fuel r1 with
            | some (xs, r2) => some (.arr xs, r2)
            | none => none
    | '{' :: r =>
        match dropWs r with
        | '}' :: r1 => some (.obj [], r1)
        | r1 =>
            match parseMembers fuel r1 with
            | some (ms, r2) => some (.obj ms, r2)
            | none => none
    | '-' :: r =>
        match grabDigits r with
        | ([], _) => none
        | (ds, r1) => some (.int (-(digitsVal ds : Int)), r1)
    | c :: r =>
        if isDigitChar c then
          match grabDigits (c :: r) with
          | (ds, r1) => some (.int (digitsVal ds), r1)
        else none
    | [] => none
/-- Parse one-or-more comma-separated array items up to the closing `]`. -/
def parseItems (fuel : Nat) (cs : List Char) : Option (List JValue × List Char) :=
  match fuel with
  | 0 => none
  | fuel + 1 =>
    match parseValue fuel cs with
    | none => none
    | some (v, r) =>
        match dropWs r with
        | ',' :: r1 =>
            match parseItems fuel r1 with
            | some (vs, r2) => some (v :: vs, r2)
            | none => none
        | ']' :: r1 => some ([v], r1)
        | _ => none
/-- Parse one-or-more comma-separated object members up to the closing `}`. -/
def parseMembers (fuel : Nat) (cs : List Char) :
    Option (List (String × JValue) × List Char) :=
  match fuel with
  | 0 => none
  | fuel + 1 =>
    match dropWs cs with
    | '"' :: r =>
        match parseStringBody [] r with
        | none => none
        | some (k, r1) =>
            match dropWs r1 with
            | ':' :: r2 =>
                match parseValue fuel r2 with
                | none => none
                | some (v, r3) =>
                    match dropWs r3 with
                    | ',' :: r4 =>
                        match parseMembers fuel r4 with
                        | some (ms, r5) => some ((k, v) :: ms, r5)
                        | none => none
                    | '}' :: r4 => some ([(k, v)], r4)
                    | _ => none
            | _ => none
    | _ => none
end

/-- Parse a complete JSON document: one value, then only whitespace. -/
def parseJson (s : String) : Option JValue :=
  match parseValue (s.data.length + 1) s.data with
  | some (v, r) => if (dropWs r).isEmpty then some v else none
  | none => none

/-! ## Python values -/

/-- A chunk of a streaming source: `stream()` probes a `content` facet, then a
`text` facet, else uses the chunk itself (`base`). -/
structure Chunk where
  content : Option String
  text : Option String
  base : String

/-- The Python values the vertex core passes around. Dictionaries are
association lists in insertion order. `record` is the langflow `Record`
(modelled from the spec: a structured value whose attributes — among them the
textual representation `text`, the raw-data form `data`, and a settable
`message` — live in an attribute map). `iterator` covers both `Iterator` and
`AsyncIterator` sources. `other` stands for any further object, carrying its
string form. -/
inductive PyVal where
  | pyNone
  | pyBool (b : Bool)
  | pyInt (n : Int)
  | pyStr (s : String)
  | pyList (xs : List PyVal)
  | pyDict (kvs : List (String × PyVal))
  | aiMessage (content : String)
  | unbuilt
  | record (attrs : List (String × PyVal))
  | iterator (isAsync : Bool) (chunks : List Chunk)
  | recordOutput (records : List PyVal)
  | other (s : String)

/-- First value bound to `k`, if any (Python dict lookup). -/
def lookupBy {α : Type} (m : List (String × α)) (k : String) : Option α :=
  (m.find? fun kv => kv.1 == k).map fun kv => kv.2

/-- `m.get(k, d)`. -/
def lookupByD {α : Type} (m : List (String × α)) (k : String) (d : α) : α :=
  (lookupBy m k).getD d

/-- `m[k] = val`: update an existing key in place, else append (Python dict
insertion-order semantics). -/
def alSet {α : Type} : List (String × α) → String → α → List (String × α)
  | [], k, val => [(k, val)]
  | kv :: rest, k, val =>
      if kv.1 == k then (kv.1, val) :: rest else kv :: alSet rest k val

/-- Whether the value is Python's `None`. -/
def PyVal.isNone : PyVal → Bool
  | .pyNone => true
  | _ => false

/-- Whether the value is an `Iterator` or `AsyncIterator`. -/
def isIterator : PyVal → Bool
  | .iterator _ _ => true
  | _ => false

/-- Python truthiness. -/
def pyTruthy : PyVal → Bool
  | .pyNone => false
  | .pyBool b => b
  | .pyInt n => n != 0
  | .pyStr s => !s.isEmpty
  | .pyList xs => !xs.isEmpty
  | .pyDict kvs => !kvs.isEmpty
  | _ => true

/-- `str()` of a value, where the core calls it. -/
def pyRepr : PyVal → String
  | .pyNone => "None"
  | .pyBool true => "True"
  | .pyBool false => "False"
  | .pyInt n => String.mk (intChars n)
  | .pyStr s => s
  | .aiMessage c => c
  | .unbuilt => "Unbuilt object"
  | _ => "<object>"

mutual
/-- Modelled from the spec: the field serializer collaborator converts
arbitrary non-JSON-native values into JSON-safe representations (JSON-native
values pass through, containers recursively, anything else via its string
form). `serialize_field` lives in `langflow/graph/utils.py`, outside src/. -/
def serialize_field : PyVal → JValue
  | .pyNone => .null
  | .pyBool b => .bool b
  | .pyInt n => .int n
  | .pyStr s => .str s
  | .pyList xs => .arr (serialize_fieldList xs)
  | .pyDict kvs => .obj (serialize_fieldPairs kvs)
  | v => .str (pyRepr v)
/-- `serialize_field` over a list. -/
def serialize_fieldList : List PyVal → List JValue
  | [] => []
  | x :: xs => serialize_field x :: serialize_fieldList xs
/-- `serialize_field` over a mapping's values. -/
def serialize_fieldPairs : List (String × PyVal) → List (String × JValue)
  | [] => []
  | kv :: kvs => (kv.1, serialize_field kv.2) :: serialize_fieldPairs kvs
end

/-- `dict_to_codeblock` from the source: serialize each value, dump as
indented JSON, and wrap in a fenced `json` code block. -/
def dict_to_codeblock (d : List (String × PyVal)) : String :=
  let serialized := serialize_fieldPairs d
  let json_str := json_dumps_indent4 (.obj serialized)
  "```json\n" ++ json_str ++ "\n```"

/-- Modelled from the spec: `unescape_string` (outside src/) turns literal
escape sequences into control characters. -/
def unescape_string (s : String) : String := s.replace "\\n" "\n"

/-- Modelled from the spec: the name of the input-field parameter
(`INPUT_FIELD_NAME`, outside src/). -/
def INPUT_FIELD_NAME : String := "input_value"

/-- The langflow `Record`'s textual representation (modelled from the spec:
the `text` attribute, defaulting to the empty string). -/
def recordText (attrs : List (String × PyVal)) : PyVal :=
  lookupByD attrs "text" (.pyStr "")

/-- The langflow `Record`'s raw-data form (the `data` attribute). -/
def recordData (attrs : List (String × PyVal)) : PyVal :=
  lookupByD attrs "data" .pyNone

/-- `Record(text=..., data=...)`. -/
def mkRecord (text data : PyVal) : PyVal :=
  .record [("text", text), ("data", data)]

/-! ## The artifact envelope -/

/-- Modelled from the spec: the artifact type tag, `"OBJECT"` or `"STREAM"`. -/
inductive ArtifactType where
  | OBJECT
  | STREAM

/-- The tag's string value. -/
def ArtifactType.value : ArtifactType → String
  | .OBJECT => "OBJECT"
  | .STREAM => "STREAM"

/-- Modelled from the spec: the chat artifact envelope
`{message, sender, sender_name, stream_url (nullable), files, type}`
(`ChatOutputResponse`, outside src/). -/
structure ChatOutputResponse where
  message : PyVal
  sender : PyVal
  sender_name : PyVal
  stream_url : PyVal
  files : List PyVal
  type : ArtifactType

/-- The envelope's fields in declaration order. -/
def ChatOutputResponse.fields (c : ChatOutputResponse) : List (String × PyVal) :=
  [("message", c.message), ("sender", c.sender), ("sender_name", c.sender_name),
   ("stream_url", c.stream_url), ("files", .pyList c.files),
   ("type", .pyStr c.type.value)]

/-- `model_dump()`: every field, null-valued ones included. -/
def ChatOutputResponse.model_dump (c : ChatOutputResponse) : PyVal :=
  .pyDict c.fields

/-- `model_dump(exclude_none=True)`: fields whose value is `None` are
omitted. -/
def ChatOutputResponse.model_dump_exclude_none (c : ChatOutputResponse) : PyVal :=
  .pyDict (c.fields.filter fun kv => !kv.2.isNone)

/-- Modelled from the spec: `ChatOutputResponse.from_message` builds the
envelope directly from an assistant message (sender metadata attached). -/
def ChatOutputResponse.from_message (content : String) (sender sender_name : PyVal) :
    ChatOutputResponse :=
  ⟨.pyStr content, sender, sender_name, .pyNone, [], .OBJECT⟩

/-- The files parameter: each bare path string is wrapped into a `{path}`
record, structured entries pass through. A non-list `files` value does not
occur (Python would raise iterating it). -/
def normalize_files : PyVal → List PyVal
  | .pyList fs =>
      fs.map fun f =>
        match f with
        | .pyStr _ => .pyDict [("path", f)]
        | _ => f
  | _ => []

/-! ## The vertex model -/

/-- An edge's source handle. -/
structure SourceHandle where
  name : String

/-- A directed, handle-qualified edge. -/
structure ContractEdge where
  source_id : String
  target_id : String
  source_handle : SourceHandle

/-- The graph facets the vertex core reads: flow id, the structural
successor map and the scheduler-activated vertices. -/
structure Graph where
  flow_id : String
  successor_map : List (String × List String)
  activated_vertices : List String

/-- The mutable vertex state the source file touches. -/
structure Vertex where
  id : String
  display_name : String
  _built : Bool
  edges : List ContractEdge
  results : List (String × PyVal)
  params : List (String × PyVal)
  artifacts : PyVal
  _built_object : PyVal
  _built_result : PyVal
  _custom_component : PyVal
  will_stream : Bool

/-- A transaction record the `log_transaction` hook receives. -/
inductive TxStatus where
  | success
  | error

/-- One `log_transaction(source, target, flow_id, status)` call. -/
structure TxRecord where
  source_id : String
  target_id : Option String
  flow_id : String
  status : TxStatus

/-- The failure cases of `_get_result` (each a `ValueError` in Python). -/
inductive GetResultError where
  | notBuilt
  | missingRequester
  | missingEdge
  | missingHandle

/-- `get_edge_with_target`: linear scan of the outgoing edges, first edge
whose target id matches, else none. -/
def get_edge_with_target (v : Vertex) (target_id : String) : Option ContractEdge :=
  v.edges.find? fun e => e.target_id == target_id

/-- `ComponentVertex._get_result`: the value keyed by the connecting edge's
source handle, plus the transaction records emitted along the way. -/
def _get_result (v : Vertex) (g : Graph) (requester : Option Vertex) :
    Except GetResultError PyVal × List TxRecord :=
  if v._built = false then
    (.error .notBuilt, [⟨v.id, requester.map fun r => r.id, g.flow_id, .error⟩])
  else
    match requester with
    | none => (.error .missingRequester, [])
    | some req =>
        match get_edge_with_target v req.id with
        | none => (.error .missingEdge, [])
        | some edge =>
            match lookupBy v.results edge.source_handle.name with
            | none => (.error .missingHandle, [])
            | some result => (.ok result, [⟨v.id, some req.id, g.flow_id, .success⟩])

/-- Modelled from the spec: `add_result` (Vertex base, outside src/) writes a
handle's value into the Result Store. -/
def add_result (v : Vertex) (key : String) (value : PyVal) : Vertex :=
  { v with results := alSet v.results key value }

/-- The component's return value: a bare object, an (object, artifacts) pair,
or a (component handle, object, artifacts) triple. -/
inductive BuildResult where
  | single (obj : PyVal)
  | pair (obj : PyVal) (artifacts : PyVal)
  | triple (handle : PyVal) (obj : PyVal) (artifacts : PyVal)

/-- `.items()`: a mapping's pairs; anything else raises `AttributeError`. -/
def pyItems : PyVal → Option (List (String × PyVal))
  | .pyDict kvs => some kvs
  | _ => none

/-- The error `_update_built_object_and_artifacts` can raise. -/
inductive NormalizeError where
  | attributeError

/-- `ComponentVertex._update_built_object_and_artifacts`: unpack the return
shape into built object (and artifacts, and component handle), then iterate
the built object as a mapping, storing every key/value pair. -/
def _update_built_object_and_artifacts (v : Vertex) (result : BuildResult) :
    Except NormalizeError Vertex :=
  let v1 :=
    match result with
    | .single obj => { v with _built_object := obj }
    | .pair obj arts => { v with _built_object := obj, artifacts := arts }
    | .triple handle obj arts =>
        { v with _custom_component := handle, _built_object := obj, artifacts := arts }
  match pyItems v1._built_object with
  | none => .error .attributeError
  | some kvs => .ok (kvs.foldl (fun w kv => add_result w kv.1 kv.2) v1)

/-- `InterfaceVertex.build_stream_url`. -/
def build_stream_url (g : Graph) (v : Vertex) : String :=
  "/api/v1/build/" ++ g.flow_id ++ "/" ++ v.id ++ "/stream"

/-- The errors `_process_chat_component` can raise outside the artifact
taxonomy: a missing `results` key, or a `results["record"]` entry that is not
a `Record` (its `message` attribute cannot be assigned). -/
inductive ChatError where
  | keyErrorMessage
  | keyErrorRecord
  | attrErrorRecord

/-- The message parameter as the chat path reads it: the input-field value,
string-unescaped when it is a plain string. -/
def chatMessageParam (v : Vertex) : PyVal :=
  match lookupByD v.params INPUT_FIELD_NAME .pyNone with
  | .pyStr s => PyVal.pyStr (unescape_string s)
  | m => m

/-- `InterfaceVertex._process_chat_component`: classify `results["message"]`
by shape (assistant message, unbuilt placeholder, mapping, record, streaming
input, non-string, string — in that order), build the artifact envelope, and
return the updated vertex with the processed message. -/
def _process_chat_component (v : Vertex) (g : Graph) :
    Except ChatError (Vertex × PyVal) :=
  let sender := lookupByD v.params "sender" .pyNone
  let sender_name := lookupByD v.params "sender_name" .pyNone
  let files := normalize_files (lookupByD v.params "files" (.pyList []))
  let message := chatMessageParam v
  match lookupBy v.results "message" with
  | none => .error .keyErrorMessage
  | some text_output =>
    match text_output with
    | .aiMessage content =>
        let artifacts := ChatOutputResponse.from_message content sender sender_name
        .ok ({ v with artifacts := artifacts.model_dump_exclude_none }, message)
    | .unbuilt => .ok (v, message)
    | .pyDict kvs =>
        let message1 := PyVal.pyStr (dict_to_codeblock kvs)
        let resp : ChatOutputResponse :=
          ⟨message1, sender, sender_name, .pyNone, files, .OBJECT⟩
        .ok ({ v with
               will_stream := false
               artifacts := resp.model_dump_exclude_none }, message1)
    | .record attrs =>
        let message1 := recordText attrs
        let resp : ChatOutputResponse :=
          ⟨message1, sender, sender_name, .pyNone, files, .OBJECT⟩
        .ok ({ v with
               will_stream := false
               artifacts := resp.model_dump_exclude_none }, message1)
    | t =>
        if isIterator message then
          let url := build_stream_url g v
          let message1 := PyVal.pyStr ""
          let results1 := alSet v.results "message" message1
          match lookupBy results1 "record" with
          | none => .error .keyErrorRecord
          | some (.record attrs) =>
              let results2 :=
                alSet results1 "record" (.record (alSet attrs "message" message1))
              let resp : ChatOutputResponse :=
                ⟨message1, sender, sender_name, .pyStr url, files, .STREAM⟩
              .ok ({ v with
                     results := results2
                     _built_object := .pyDict results2
                     will_stream := true
                     artifacts := resp.model_dump_exclude_none }, message1)
          | some _ => .error .attrErrorRecord
        else
          let message1 :=
            match t with
            | .pyStr _ => t
            | o => PyVal.pyStr (pyRepr o)
          let resp : ChatOutputResponse :=
            ⟨message1, sender, sender_name, .pyNone, files, .OBJECT⟩
          .ok ({ v with
                 will_stream := false
                 artifacts := resp.model_dump_exclude_none }, message1)

/-- The errors of `_process_record_component`: the record-expected
`ValueError`, or the `UnboundLocalError` raised when the built object is
neither a `Record` nor a list (the local `artifacts` is then never bound). -/
inductive RecordsError where
  | typeMismatch
  | unboundLocal

/-- The record-path loop: the raw data of the record elements in order, and
the logged (skipped) non-record elements; a type-mismatch error when a
non-record element is met and errors are not ignored. -/
def collectRecords (ignore : Bool) : List PyVal → Except RecordsError (List PyVal × List PyVal)
  | [] => .ok ([], [])
  | x :: rest =>
      match x with
      | .record attrs =>
          match collectRecords ignore rest with
          | .ok (vs, ls) => .ok (recordData attrs :: vs, ls)
          | .error e => .error e
      | _ =>
          if ignore then
            match collectRecords ignore rest with
            | .ok (vs, ls) => .ok (vs, x :: ls)
            | .error e => .error e
          else .error .typeMismatch

/-- `InterfaceVertex._process_record_component`: a single `Record` yields its
raw data; a list is folded by `collectRecords` under the `ignore_errors`
parameter; any other shape leaves the local `artifacts` unbound and raises
before `self.artifacts` is assigned. Returns the updated vertex, the built
object, and the logged elements. -/
def _process_record_component (v : Vertex) :
    Except RecordsError (Vertex × PyVal × List PyVal) :=
  match v._built_object with
  | .record attrs =>
      .ok ({ v with artifacts := .recordOutput [recordData attrs] }, v._built_object, [])
  | .pyList xs =>
      let ignore_errors := pyTruthy (lookupByD v.params "ignore_errors" (.pyBool false))
      match collectRecords ignore_errors xs with
      | .ok (arts, logs) =>
          .ok ({ v with artifacts := .recordOutput arts }, v._built_object, logs)
      | .error e => .error e
  | _ => .error .unboundLocal

/-- The precondition failure of `stream()`. -/
inductive StreamError where
  | invalidStreamSource

/-- A chunk's textual payload: prefer the `content` facet, else the `text`
facet, else the chunk itself. -/
def extract_text (c : Chunk) : String :=
  match c.content with
  | some s => s
  | none =>
      match c.text with
      | some t => t
      | none => c.base

/-- Modelled from the spec: `_finalize_build` (Vertex base, outside src/)
finalizes the build, clearing the transient streaming markers. -/
def _finalize_build (v : Vertex) : Vertex := { v with will_stream := false }

/-- `InterfaceVertex.stream()`: requires the input-field parameter to be an
iterator; yields each chunk's extracted text while accumulating, then stores
the final chat artifact, overwrites the input-field parameter, sets the built
object to `Record(text=accumulated, data=artifacts)`, finalizes and marks the
vertex built. Returns the yielded texts and the final vertex (the graph is
read only by the build-completion log hook, which is not modelled). -/
def stream (v : Vertex) : Except StreamError (List String × Vertex) :=
  match lookupByD v.params INPUT_FIELD_NAME .pyNone with
  | .iterator _ chunks =>
      let yields := chunks.map extract_text
      let complete_message := String.join yields
      let resp : ChatOutputResponse :=
        ⟨.pyStr complete_message, lookupByD v.params "sender" (.pyStr ""),
         lookupByD v.params "sender_name" (.pyStr ""), .pyNone,
         normalize_files (lookupByD v.params "files" (.pyList [])), .OBJECT⟩
      let arts := resp.model_dump
      let v1 := { v with
        artifacts := arts
        params := alSet v.params INPUT_FIELD_NAME (.pyStr complete_message)
        _built_object := mkRecord (.pyStr complete_message) arts
        _built_result := .pyStr complete_message }
      let v2 := _finalize_build v1
      .ok (yields, { v2 with _built := true })
  | _ => .error .invalidStreamSource

/-- `StateVertex.successors_ids`: the structural successors from the graph's
successor map, then the scheduler-activated vertices appended. -/
def successors_ids (g : Graph) (vid : String) : List String :=
  let successors := lookupByD g.successor_map vid []
  successors ++ g.activated_vertices

/-! ## Observation helpers -/

/-- Whether the value is a langflow `Record`. -/
def isRecordVal : PyVal → Bool
  | .record _ => true
  | _ => false

/-- A record element's raw data, `none` for a non-record. -/
def recordDataOf : PyVal → Option PyVal
  | .record attrs => some (recordData attrs)
  | _ => none

/-- Neither a `Record` nor a list: the shapes on which the record path leaves
its local `artifacts` unbound. -/
def notRecordNorList : PyVal → Bool
  | .record _ => false
  | .pyList _ => false
  | _ => true

/-- An entry of the vertex's stored artifact envelope. -/
def artifactEntry (v : Vertex) (k : String) : Option PyVal :=
  match v.artifacts with
  | .pyDict kvs => lookupBy kvs k
  | _ => none

/-- Whether a stored artifact envelope has no null-valued field. -/
def pyDictNoNull : PyVal → Bool
  | .pyDict kvs => kvs.all fun kv => !kv.2.isNone
  | _ => false

/-- The shapes the chat path's elif chain has already ruled out when it
probes the message parameter for an iterator: not an assistant message, not
the unbuilt placeholder, not a mapping, not a record. -/
def chatFallthrough : PyVal → Bool
  | .aiMessage _ => false
  | .unbuilt => false
  | .pyDict _ => false
  | .record _ => false
  | _ => true

/-- All JSON whitespace. -/
def allWs (cs : List Char) : Bool := cs.all isJsonWs

/-- Empty, or headed by a non-digit: a remainder that cannot extend a
rendered number. -/
def noDigitHead : List Char → Bool
  | [] => true
  | c :: _ => !isDigitChar c

/-! ## Concrete instances used by witnesses and counterexamples -/

/-- A one-edge graph body for the concrete runs. -/
def wGraph : Graph := ⟨"flow1", [("A", ["B", "C"])], ["X", "B"]⟩

/-- A built producer with an edge to "B" and one stored result. -/
def wProducer : Vertex :=
  ⟨"A", "node A", true, [⟨"A", "B", ⟨"out"⟩⟩], [("out", .pyInt 7)], [],
   .pyNone, .pyNone, .pyNone, .pyNone, false⟩

/-- The consumer on the other end of the edge. -/
def wConsumer : Vertex :=
  ⟨"B", "node B", false, [], [], [], .pyNone, .pyNone, .pyNone, .pyNone, false⟩

/-- A vertex with empty state. -/
def wBlank : Vertex :=
  ⟨"V", "node V", false, [], [], [], .pyNone, .pyNone, .pyNone, .pyNone, false⟩

/-- A two-key mapping, the single-object build result of the C3 run. -/
def wPairDict : PyVal := .pyDict [("a", .pyInt 1), ("b", .pyInt 2)]

/-- A record element with text and raw data. -/
def wRecord1 : PyVal := .record [("text", .pyStr "t1"), ("data", .pyDict [("k", .pyInt 1)])]

/-- A second record element. -/
def wRecord2 : PyVal := .record [("text", .pyStr "t2"), ("data", .pyStr "d2")]

/-- A record-path vertex whose built list holds a non-record element, with
`ignore_errors` unset. -/
def wRecStrict : Vertex :=
  ⟨"R", "node R", true, [], [], [], .pyNone,
   .pyList [wRecord1, .pyStr "bad", wRecord2], .pyNone, .pyNone, false⟩

/-- The same built list with `ignore_errors=True`. -/
def wRecLoose : Vertex :=
  ⟨"R", "node R", true, [], [], [("ignore_errors", .pyBool true)], .pyNone,
   .pyList [wRecord1, .pyStr "bad", wRecord2], .pyNone, .pyNone, false⟩

/-- A record-path vertex whose built object is a plain string. -/
def wRecPlain : Vertex :=
  ⟨"R", "node R", true, [], [], [], .pyNone, .pyStr "plain", .pyNone, .pyNone, false⟩

/-- The spec's streaming example: chunks `"Hello "` (a content facet) and
`"world"` (a text facet). -/
def wChunks : List Chunk := [⟨some "Hello ", none, ""⟩, ⟨none, some "world", ""⟩]

/-- A vertex whose input-field parameter is an iterator over `wChunks`. -/
def wStreamer : Vertex :=
  ⟨"S", "node S", false, [], [],
   [(INPUT_FIELD_NAME, .iterator false wChunks)],
   .pyNone, .pyNone, .pyNone, .pyNone, false⟩

/-- A chat vertex in the streaming sub-case: the text result is a plain
string, the message parameter an iterator, and a record result is present. -/
def wChatStream : Vertex :=
  ⟨"C", "node C", true, [],
   [("message", .pyStr "partial"), ("record", .record [("text", .pyStr "partial")])],
   [(INPUT_FIELD_NAME, .iterator true [⟨none, none, "x"⟩])],
   .pyNone, .pyNone, .pyNone, .pyNone, false⟩

/-- A chat vertex whose text result is the spec's example mapping
`{"a": 1, "b": "x"}`. -/
def wChatDict : Vertex :=
  ⟨"D", "node D", true, [],
   [("message", .pyDict [("a", .pyInt 1), ("b", .pyStr "x")])], [],
   .pyNone, .pyNone, .pyNone, .pyNone, false⟩

/-! ## Association-list lemmas -/

theorem lookupBy_alSet_self {α : Type} (m : List (String × α)) (k : String) (x : α) :
    lookupBy (alSet m k x) k = some x := by
  induction m with
  | nil => simp [alSet, lookupBy]
  | cons kv rest ih =>
      by_cases h : kv.1 == k
      · simp [alSet, h, lookupBy, List.find?]
      · simp only [alSet, h, Bool.false_eq_true, if_false, lookupBy, List.find?]
        simpa [lookupBy] using ih

theorem lookupBy_alSet_ne {α : Type} (m : List (String × α)) (k k1 : String) (x : α)
    (h : (k1 == k) = false) : lookupBy (alSet m k1 x) k = lookupBy m k := by
  induction m with
  | nil => simp [alSet, lookupBy, List.find?, h]
  | cons kv rest ih =>
      by_cases hk : kv.1 == k1
      · have hne : (kv.1 == k) = false := by
          have h1 : kv.1 = k1 := by simpa using hk
          simpa [h1] using h
        simp [alSet, hk, lookupBy, List.find?, hne]
      · by_cases hkk : kv.1 == k
        · simp [alSet, hk, lookupBy, List.find?, hkk]
        · simp only [alSet, hk, Bool.false_eq_true, if_false]
          simp only [lookupBy, List.find?, hkk] at ih ⊢
          exact ih

/-! ## C1 and C4: the result-resolution protocol -/

/-- C1: `_get_result` fails, in this order, when the vertex is not built;
when (built) the requester is unset; when no outgoing edge has the requester
as target; when the found edge's source-handle name has no result-store
entry; and otherwise returns exactly the stored value keyed by the edge's
source handle. -/
theorem c1_get_result_order (v : Vertex) (g : Graph) (req : Option Vertex) :
    (v._built = false → (_get_result v g req).1 = .error .notBuilt)
    ∧ (v._built = true → req = none →
        (_get_result v g req).1 = .error .missingRequester)
    ∧ (∀ r, v._built = true → req = some r → get_edge_with_target v r.id = none →
        (_get_result v g req).1 = .error .missingEdge)
    ∧ (∀ r e, v._built = true → req = some r → get_edge_with_target v r.id = some e →
        lookupBy v.results e.source_handle.name = none →
        (_get_result v g req).1 = .error .missingHandle)
    ∧ (∀ r e x, v._built = true → req = some r → get_edge_with_target v r.id = some e →
        lookupBy v.results e.source_handle.name = some x →
        (_get_result v g req).1 = .ok x) := by
  refine ⟨fun hb => ?_, fun hb hr => ?_, fun r hb hr he => ?_,
          fun r e hb hr he hh => ?_, fun r e x hb hr he hh => ?_⟩
  · simp [_get_result, hb]
  · subst hr; simp [_get_result, hb]
  · subst hr; simp [_get_result, hb, he]
  · subst hr; simp [_get_result, hb, he, hh]
  · subst hr; simp [_get_result, hb, he, hh]

/-- C1 witness: on the concrete producer, every arm of `c1_get_result_order`
is exercised where its guard holds; shown here at the not-built consumer. -/
theorem c1_get_result_order_witness :
    (_get_result wConsumer wGraph (some wProducer)).1 = .error .notBuilt :=
  (c1_get_result_order wConsumer wGraph (some wProducer)).1 rfl

/-- C4 (amended): `_get_result` emits exactly one success transaction record
when a value is returned and exactly one error record when the vertex is not
built; the other three failure cases (requester unset, missing edge, missing
handle) emit no transaction record at all. -/
theorem c4_transaction_records (v : Vertex) (g : Graph) (req : Option Vertex) :
    ((_get_result v g req).1 = .error .notBuilt →
      (_get_result v g req).2
        = [⟨v.id, req.map fun r => r.id, g.flow_id, .error⟩])
    ∧ (∀ x, (_get_result v g req).1 = .ok x →
      ∃ r, req = some r ∧
        (_get_result v g req).2 = [⟨v.id, some r.id, g.flow_id, .success⟩])
    ∧ (((_get_result v g req).1 = .error .missingRequester
        ∨ (_get_result v g req).1 = .error .missingEdge
        ∨ (_get_result v g req).1 = .error .missingHandle) →
      (_get_result v g req).2 = []) := by
  by_cases hb : v._built = false
  · refine ⟨fun _ => by simp [_get_result, hb], fun x hx => ?_, fun hx => ?_⟩
    · simp [_get_result, hb] at hx
    · simp [_get_result, hb] at hx
  · have hb1 : v._built = true := by simpa using hb
    cases req with
    | none =>
        refine ⟨fun hx => ?_, fun x hx => ?_, fun _ => by simp [_get_result, hb1]⟩
        · simp [_get_result, hb1] at hx
        · simp [_get_result, hb1] at hx
    | some r =>
        cases he : get_edge_with_target v r.id with
        | none =>
            refine ⟨fun hx => ?_, fun x hx => ?_, fun _ => by simp [_get_result, hb1, he]⟩
            · simp [_get_result, hb1, he] at hx
            · simp [_get_result, hb1, he] at hx
        | some e =>
            cases hh : lookupBy v.results e.source_handle.name with
            | none =>
                refine ⟨fun hx => ?_, fun x hx => ?_,
                        fun _ => by simp [_get_result, hb1, he, hh]⟩
                · simp [_get_result, hb1, he, hh] at hx
                · simp [_get_result, hb1, he, hh] at hx
            | some y =>
                refine ⟨fun hx => ?_, fun x hx => ⟨r, rfl, ?_⟩, fun hx => ?_⟩
                · simp [_get_result, hb1, he, hh] at hx
                · simp [_get_result, hb1, he, hh]
                · simp [_get_result, hb1, he, hh] at hx

/-- C4 counterexample: a built vertex asked for a result with the requester
unset fails (`missingRequester`) yet emits no transaction record, against the
claim that every one of the four failure cases emits an error record. -/
theorem c4_counterexample :
    (_get_result wProducer wGraph none).1 = .error .missingRequester
    ∧ (_get_result wProducer wGraph none).2 = [] := ⟨rfl, rfl⟩

/-! ## C3: build-output normalization -/

theorem foldl_add_result (kvs : List (String × PyVal)) (w : Vertex) :
    kvs.foldl (fun u kv => add_result u kv.1 kv.2) w
      = { w with results := kvs.foldl (fun m kv => alSet m kv.1 kv.2) w.results } := by
  induction kvs generalizing w with
  | nil => rfl
  | cons kv rest ih =>
      rw [List.foldl_cons, ih, List.foldl_cons]
      rfl

theorem update_single_dict (v : Vertex) (kvs : List (String × PyVal)) :
    _update_built_object_and_artifacts v (.single (.pyDict kvs))
      = .ok { v with
              _built_object := .pyDict kvs
              results := kvs.foldl (fun m kv => alSet m kv.1 kv.2) v.results } := by
  have h : _update_built_object_and_artifacts v (.single (.pyDict kvs))
      = .ok (kvs.foldl (fun w kv => add_result w kv.1 kv.2)
          { v with _built_object := .pyDict kvs }) := rfl
  rw [h, foldl_add_result]

theorem update_pair_dict (v : Vertex) (kvs : List (String × PyVal)) (arts : PyVal) :
    _update_built_object_and_artifacts v (.pair (.pyDict kvs) arts)
      = .ok { v with
              _built_object := .pyDict kvs
              artifacts := arts
              results := kvs.foldl (fun m kv => alSet m kv.1 kv.2) v.results } := by
  have h : _update_built_object_and_artifacts v (.pair (.pyDict kvs) arts)
      = .ok (kvs.foldl (fun w kv => add_result w kv.1 kv.2)
          { v with _built_object := .pyDict kvs, artifacts := arts }) := rfl
  rw [h, foldl_add_result]

/-- C3 (amended): in both the single-object case and the (object, artifacts)
pair case the object becomes the built object and is iterated as a mapping,
each key/value pair stored into the result store under that key (the single
object is not stored as one sole entry); the pair's artifacts are stored
as-is, while the single case leaves artifacts untouched. -/
theorem c3_normalization (v : Vertex) (kvs : List (String × PyVal)) (arts : PyVal) :
    (∃ v1, _update_built_object_and_artifacts v (.single (.pyDict kvs)) = .ok v1
      ∧ v1._built_object = .pyDict kvs
      ∧ v1.results = kvs.foldl (fun m kv => alSet m kv.1 kv.2) v.results
      ∧ v1.artifacts = v.artifacts)
    ∧ (∃ v2, _update_built_object_and_artifacts v (.pair (.pyDict kvs) arts) = .ok v2
      ∧ v2._built_object = .pyDict kvs
      ∧ v2.results = kvs.foldl (fun m kv => alSet m kv.1 kv.2) v.results
      ∧ v2.artifacts = arts) := by
  constructor
  · exact ⟨_, update_single_dict v kvs, rfl, rfl, rfl⟩
  · exact ⟨_, update_pair_dict v kvs arts, rfl, rfl, rfl⟩

/-- C3 counterexample: normalizing the single (non-tuple) object
`{"a": 1, "b": 2}` stores two result entries, one per key — the object is not
stored as the sole result of the store under any key. -/
theorem c3_counterexample :
    ((_update_built_object_and_artifacts wBlank (.single wPairDict)).map fun v => v.results)
      = .ok [("a", .pyInt 1), ("b", .pyInt 2)]
    ∧ ¬ ∃ k, ((_update_built_object_and_artifacts wBlank (.single wPairDict)).map
        fun v => v.results) = .ok [(k, wPairDict)] := by
  refine ⟨rfl, ?_⟩
  rintro ⟨k, h⟩
  rw [show ((_update_built_object_and_artifacts wBlank (.single wPairDict)).map
      fun v => v.results) = .ok [("a", .pyInt 1), ("b", .pyInt 2)] from rfl] at h
  simp at h

/-! ## C9: StateVertex successors -/

/-- C9: `successors_ids` is the structural outgoing-edge successor list (its
order preserved as the prefix) with the scheduler-activated ids appended as
the suffix, and duplicates are kept: every id occurs exactly as often as in
the two source lists combined. -/
theorem c9_successors_ids (g : Graph) (vid : String) :
    (successors_ids g vid).take (lookupByD g.successor_map vid []).length
      = lookupByD g.successor_map vid []
    ∧ (successors_ids g vid).drop (lookupByD g.successor_map vid []).length
      = g.activated_vertices
    ∧ ∀ x, (successors_ids g vid).count x
      = (lookupByD g.successor_map vid []).count x + g.activated_vertices.count x := by
  refine ⟨?_, ?_, fun x => ?_⟩
  · exact List.take_left ..
  · exact List.drop_left ..
  · exact List.count_append ..

/-! ## C7 and C10: the record path -/

theorem collectRecords_ignore (xs : List PyVal) :
    collectRecords true xs
      = .ok (xs.filterMap recordDataOf, xs.filter fun x => !(isRecordVal x)) := by
  induction xs with
  | nil => rfl
  | cons x rest ih =>
      cases x <;> simp [collectRecords, ih, recordDataOf, isRecordVal,
        List.filterMap_cons, List.filter_cons]

theorem collectRecords_strict_err (xs : List PyVal)
    (hx : ∃ x ∈ xs, isRecordVal x = false) :
    collectRecords false xs = .error .typeMismatch := by
  induction xs with
  | nil => simp at hx
  | cons x rest ih =>
      rcases hx with ⟨y, hy, hyr⟩
      rcases List.mem_cons.mp hy with h1 | h2
      · subst h1
        cases y <;> simp_all [collectRecords, isRecordVal]
      · cases x with
        | record attrs => simp [collectRecords, ih ⟨y, h2, hyr⟩]
        | pyNone => simp [collectRecords]
        | pyBool b => simp [collectRecords]
        | pyInt n => simp [collectRecords]
        | pyStr s => simp [collectRecords]
        | pyList l => simp [collectRecords]
        | pyDict d => simp [collectRecords]
        | aiMessage c => simp [collectRecords]
        | unbuilt => simp [collectRecords]
        | iterator a c => simp [collectRecords]
        | recordOutput r => simp [collectRecords]
        | other s => simp [collectRecords]

/-- C7: on a built list holding a non-record element, the record path raises
the record-expected type mismatch when `ignore_errors` is unset or falsy;
with `ignore_errors` truthy that element is logged and skipped while every
record element's raw data appears in the final records list in original
order. -/
theorem c7_record_list (v : Vertex) (xs : List PyVal)
    (hb : v._built_object = .pyList xs) :
    (pyTruthy (lookupByD v.params "ignore_errors" (.pyBool false)) = false →
      (∃ x ∈ xs, isRecordVal x = false) →
      _process_record_component v = .error .typeMismatch)
    ∧ (pyTruthy (lookupByD v.params "ignore_errors" (.pyBool false)) = true →
      ∃ v1, _process_record_component v
          = .ok (v1, .pyList xs, xs.filter fun x => !(isRecordVal x))
        ∧ v1.artifacts = .recordOutput (xs.filterMap recordDataOf)) := by
  constructor
  · intro hig hx
    simp [_process_record_component, hb, hig, collectRecords_strict_err xs hx]
  · intro hig
    refine ⟨{ v with artifacts := .recordOutput (xs.filterMap recordDataOf) }, ?_, rfl⟩
    simp [_process_record_component, hb, hig, collectRecords_ignore]

/-- C7 witness: the concrete three-element list (record, plain string,
record): strict mode raises the mismatch; ignore mode logs the string and
keeps both records' raw data in order. -/
theorem c7_record_list_witness :
    _process_record_component wRecStrict = .error .typeMismatch
    ∧ ∃ v1, _process_record_component wRecLoose
        = .ok (v1, .pyList [wRecord1, .pyStr "bad", wRecord2], [.pyStr "bad"])
      ∧ v1.artifacts = .recordOutput [.pyDict [("k", .pyInt 1)], .pyStr "d2"] := by
  constructor
  · exact (c7_record_list wRecStrict [wRecord1, .pyStr "bad", wRecord2] rfl).1 rfl
      ⟨.pyStr "bad", by simp, rfl⟩
  · rcases (c7_record_list wRecLoose [wRecord1, .pyStr "bad", wRecord2] rfl).2 rfl
      with ⟨v1, h1, h2⟩
    exact ⟨v1, by simpa using h1, by simpa using h2⟩

/-- C10: on a built object that is neither a record nor a list, the record
path stops with the unbound-variable error (`artifacts` was never assigned)
before storing anything — it does not fall back to an empty records list. -/
theorem c10_record_unbound (v : Vertex)
    (h : notRecordNorList v._built_object = true) :
    _process_record_component v = .error .unboundLocal := by
  unfold _process_record_component
  cases hb : v._built_object <;> simp_all [notRecordNorList]

/-- C10 witness: a plain-string built object hits the unbound-variable
error. -/
theorem c10_record_unbound_witness :
    _process_record_component wRecPlain = .error .unboundLocal :=
  c10_record_unbound wRecPlain rfl

/-! ## C2: the streaming path -/

/-- C2: `stream()` fails on a non-iterator input-field parameter; on an
iterator it yields each chunk's extracted text in source order, and after
exhaustion the stored artifact is the chat envelope carrying the
concatenation of the yields with type OBJECT, the input-field parameter is
overwritten by the accumulated text, the built object is a record with that
text and the artifacts as data, and the vertex is marked built. -/
theorem c2_stream (v : Vertex) :
    (isIterator (lookupByD v.params INPUT_FIELD_NAME .pyNone) = false →
      stream v = .error .invalidStreamSource)
    ∧ ∀ b chunks, lookupByD v.params INPUT_FIELD_NAME .pyNone = .iterator b chunks →
      ∃ vf, stream v = .ok (chunks.map extract_text, vf)
        ∧ artifactEntry vf "message"
            = some (.pyStr (String.join (chunks.map extract_text)))
        ∧ artifactEntry vf "type" = some (.pyStr "OBJECT")
        ∧ lookupBy vf.params INPUT_FIELD_NAME
            = some (.pyStr (String.join (chunks.map extract_text)))
        ∧ vf._built_object
            = mkRecord (.pyStr (String.join (chunks.map extract_text))) vf.artifacts
        ∧ vf._built = true := by
  constructor
  · intro hni
    cases hm : lookupByD v.params INPUT_FIELD_NAME .pyNone <;>
      simp [stream, hm, isIterator] at hni ⊢
  · intro b chunks hm
    simp only [stream, hm]
    refine ⟨_, rfl, ?_, ?_, ?_, rfl, rfl⟩
    · simp [artifactEntry, _finalize_build, ChatOutputResponse.model_dump,
        ChatOutputResponse.fields, lookupBy, List.find?]
    · simp [artifactEntry, _finalize_build, ChatOutputResponse.model_dump,
        ChatOutputResponse.fields, lookupBy, List.find?, ArtifactType.value]
    · exact lookupBy_alSet_self ..

/-- C2 witness: the spec's example run, chunks `"Hello "` then `"world"`:
the yields arrive in order, the accumulated message is `"Hello world"`, the
artifact type is OBJECT and the vertex is built. -/
theorem c2_stream_witness :
    ∃ vf, stream wStreamer = .ok (["Hello ", "world"], vf)
      ∧ artifactEntry vf "message" = some (.pyStr "Hello world")
      ∧ artifactEntry vf "type" = some (.pyStr "OBJECT")
      ∧ vf._built = true := by
  rcases (c2_stream wStreamer).2 false wChunks rfl with ⟨vf, h1, h2, h3, _, _, h6⟩
  rw [show wChunks.map extract_text = ["Hello ", "world"] from rfl] at h1
  rw [show String.join (wChunks.map extract_text) = "Hello world" from rfl] at h2
  exact ⟨vf, h1, h2, h3, h6⟩

/-! ## C5: the chat path's streaming sub-case -/

theorem isNone_pyStr (s : String) : (PyVal.pyStr s).isNone = false := rfl

theorem isNone_pyList (xs : List PyVal) : (PyVal.pyList xs).isNone = false := rfl

theorem artifact_lookup_stream_url (c : ChatOutputResponse) :
    lookupBy (c.fields.filter fun kv => !kv.2.isNone) "stream_url"
      = if c.stream_url.isNone then none else some c.stream_url := by
  cases hm : c.message.isNone <;> cases hs : c.sender.isNone <;>
    cases hsn : c.sender_name.isNone <;> cases hsu : c.stream_url.isNone <;>
      simp [ChatOutputResponse.fields, List.filter_cons, hm, hs, hsn, hsu,
        isNone_pyList, isNone_pyStr, lookupBy, List.find?]

theorem artifact_lookup_type (c : ChatOutputResponse) :
    lookupBy (c.fields.filter fun kv => !kv.2.isNone) "type"
      = some (.pyStr c.type.value) := by
  cases hm : c.message.isNone <;> cases hs : c.sender.isNone <;>
    cases hsn : c.sender_name.isNone <;> cases hsu : c.stream_url.isNone <;>
      simp [ChatOutputResponse.fields, List.filter_cons, hm, hs, hsn, hsu,
        isNone_pyList, isNone_pyStr, lookupBy, List.find?]

/-- C5: when the text result is neither an assistant message, nor the
unbuilt placeholder, nor a mapping, nor a record, and the message parameter
is an iterator, the chat path sets the stream URL to the deterministic
string, empties the message, the message result and the record result's
message attribute, marks `will_stream`, and stores a STREAM-typed artifact. -/
theorem c5_chat_streaming (v : Vertex) (g : Graph) (t : PyVal)
    (attrs : List (String × PyVal))
    (ht : lookupBy v.results "message" = some t)
    (hshape : chatFallthrough t = true)
    (hit : isIterator (lookupByD v.params INPUT_FIELD_NAME .pyNone) = true)
    (hrec : lookupBy v.results "record" = some (.record attrs)) :
    ∃ v1, _process_chat_component v g = .ok (v1, .pyStr "")
      ∧ v1.will_stream = true
      ∧ lookupBy v1.results "message" = some (.pyStr "")
      ∧ lookupBy v1.results "record"
          = some (.record (alSet attrs "message" (.pyStr "")))
      ∧ lookupBy (alSet attrs "message" (.pyStr "")) "message" = some (.pyStr "")
      ∧ artifactEntry v1 "stream_url"
          = some (.pyStr ("/api/v1/build/" ++ g.flow_id ++ "/" ++ v.id ++ "/stream"))
      ∧ artifactEntry v1 "type" = some (.pyStr "STREAM") := by
  have hrec1 : lookupBy (alSet v.results "message" (.pyStr "")) "record"
      = some (.record attrs) := by
    rw [lookupBy_alSet_ne v.results "record" "message" (.pyStr "") rfl, hrec]
  cases hmsg : lookupByD v.params INPUT_FIELD_NAME .pyNone with
  | iterator a chunks =>
      cases t <;> simp [chatFallthrough] at hshape <;>
      · have hmain : _process_chat_component v g = .ok
            ({ v with
               results := alSet (alSet v.results "message" (.pyStr "")) "record"
                   (.record (alSet attrs "message" (.pyStr "")))
               _built_object := .pyDict (alSet (alSet v.results "message" (.pyStr ""))
                   "record" (.record (alSet attrs "message" (.pyStr ""))))
               will_stream := true
               artifacts := (ChatOutputResponse.mk (.pyStr "")
                   (lookupByD v.params "sender" .pyNone)
                   (lookupByD v.params "sender_name" .pyNone)
                   (.pyStr (build_stream_url g v))
                   (normalize_files (lookupByD v.params "files" (.pyList [])))
                   .STREAM).model_dump_exclude_none }, .pyStr "") := by
          simp [_process_chat_component, chatMessageParam, ht, hmsg, hrec1, isIterator]
        refine ⟨_, hmain, rfl, ?_, ?_, ?_, ?_, ?_⟩
        · rw [lookupBy_alSet_ne _ "message" "record" _ rfl]
          exact lookupBy_alSet_self ..
        · exact lookupBy_alSet_self ..
        · exact lookupBy_alSet_self ..
        · simp [artifactEntry, ChatOutputResponse.model_dump_exclude_none,
            artifact_lookup_stream_url, isNone_pyStr, build_stream_url]
        · simp [artifactEntry, ChatOutputResponse.model_dump_exclude_none,
            artifact_lookup_type, ArtifactType.value]
  | pyNone => simp [isIterator, hmsg] at hit
  | pyBool b => simp [isIterator, hmsg] at hit
  | pyInt n => simp [isIterator, hmsg] at hit
  | pyStr s => simp [isIterator, hmsg] at hit
  | pyList l => simp [isIterator, hmsg] at hit
  | pyDict d => simp [isIterator, hmsg] at hit
  | aiMessage c => simp [isIterator, hmsg] at hit
  | unbuilt => simp [isIterator, hmsg] at hit
  | record r => simp [isIterator, hmsg] at hit
  | recordOutput r => simp [isIterator, hmsg] at hit
  | other s => simp [isIterator, hmsg] at hit

/-- C5 witness: the concrete chat vertex in the streaming sub-case ends with
an empty message, `will_stream` set and a STREAM artifact holding the
deterministic URL. -/
theorem c5_chat_streaming_witness :
    ∃ v1, _process_chat_component wChatStream wGraph = .ok (v1, .pyStr "")
      ∧ v1.will_stream = true
      ∧ artifactEntry v1 "stream_url"
          = some (.pyStr "/api/v1/build/flow1/C/stream")
      ∧ artifactEntry v1 "type" = some (.pyStr "STREAM") := by
  rcases c5_chat_streaming wChatStream wGraph (.pyStr "partial")
      [("text", .pyStr "partial")] rfl rfl rfl rfl with ⟨v1, h1, h2, _, _, _, h6, h7⟩
  exact ⟨v1, h1, h2, by simpa using h6, h7⟩

/-! ## C6: null fields in the stored envelopes -/

theorem noNull_exclude_none (c : ChatOutputResponse) :
    pyDictNoNull c.model_dump_exclude_none = true := by
  simp only [ChatOutputResponse.model_dump_exclude_none, pyDictNoNull,
    List.all_eq_true]
  intro kv hkv
  exact (List.mem_filter.mp hkv).2

/-- C6 (amended): every envelope the chat path stores is dumped with null
fields omitted (when the chat path does not store, the artifacts are left
untouched); the envelope built on stream completion, however, is dumped
without omitting nulls — its `stream_url` field is present with a null
value. -/
theorem c6_null_fields (v : Vertex) (g : Graph) :
    (∀ v1 m, _process_chat_component v g = .ok (v1, m) →
      v1.artifacts = v.artifacts ∨ pyDictNoNull v1.artifacts = true)
    ∧ (∀ b chunks, lookupByD v.params INPUT_FIELD_NAME .pyNone = .iterator b chunks →
      ∃ vf, stream v = .ok (chunks.map extract_text, vf)
        ∧ artifactEntry vf "stream_url" = some .pyNone) := by
  constructor
  · intro v1 m h
    cases ht : lookupBy v.results "message" with
    | none => simp [_process_chat_component, ht] at h
    | some t =>
      cases t <;>
        first
          | (simp [_process_chat_component, ht] at h
             obtain ⟨h1, h2⟩ := h
             subst h1
             first
               | exact Or.inl rfl
               | exact Or.inr (noNull_exclude_none _))
          | (by_cases hit : isIterator (chatMessageParam v) = true
             · cases hrec : lookupBy (alSet v.results "message" (.pyStr "")) "record" with
               | none =>
                   simp [_process_chat_component, ht, hit, hrec] at h
               | some val =>
                   cases val <;>
                     first
                       | (simp [_process_chat_component, ht, hit, hrec] at h
                          done)
                       | (simp [_process_chat_component, ht, hit, hrec] at h
                          obtain ⟨h1, h2⟩ := h
                          subst h1
                          exact Or.inr (noNull_exclude_none _))
             · simp [_process_chat_component, ht, hit] at h
               obtain ⟨h1, h2⟩ := h
               subst h1
               exact Or.inr (noNull_exclude_none _))
  · intro b chunks hm
    simp only [stream, hm]
    refine ⟨_, rfl, ?_⟩
    simp [artifactEntry, _finalize_build, ChatOutputResponse.model_dump,
      ChatOutputResponse.fields, lookupBy, List.find?]

/-- C6 counterexample: on the concrete streaming run the stored envelope
carries `stream_url` with a null value — a null-valued field is present, not
omitted. -/
theorem c6_counterexample :
    ∃ vf, stream wStreamer = .ok (["Hello ", "world"], vf)
      ∧ artifactEntry vf "stream_url" = some .pyNone
      ∧ pyDictNoNull vf.artifacts = false :=
  ⟨_, rfl, rfl, rfl⟩

/-! ## C8: the JSON codec round-trip

The plan follows the shape of a verified codec: whitespace and digit-run
lemmas, the string-escape inverse (including surrogate pairs), then a mutual
induction over the value showing the parser consumes exactly the rendered
characters. -/

theorem dropWs_cons_nws {c : Char} (h : isJsonWs c = false) (cs : List Char) :
    dropWs (c :: cs) = c :: cs := by
  simp [dropWs, h]

theorem dropWs_spaces (n : Nat) (cs : List Char) :
    dropWs (spaces n ++ cs) = dropWs cs := by
  induction n with
  | zero => rfl
  | succ k ih => simpa [spaces, dropWs, isJsonWs] using ih

theorem dropWs_newline (cs : List Char) : dropWs ('\n' :: cs) = dropWs cs := by
  simp [dropWs, isJsonWs]

theorem allWs_append_elim (pre cs : List Char) (h : allWs pre = true) :
    dropWs (pre ++ cs) = dropWs cs := by
  induction pre with
  | nil => rfl
  | cons c t ih =>
      simp only [allWs, List.all_cons, Bool.and_eq_true] at h
      simpa [dropWs, h.1] using ih (by simpa [allWs] using h.2)

theorem spaces_length (n : Nat) : (spaces n).length = n := by
  induction n with
  | zero => rfl
  | succ k ih => simp [spaces, ih]

theorem spaces_allWs (n : Nat) : allWs (spaces n) = true := by
  induction n with
  | zero => rfl
  | succ k ih => simpa [spaces, allWs, isJsonWs] using ih

theorem digitChar_spec (k : Nat) (h : k < 10) :
    isDigitChar (Char.ofNat ('0'.toNat + k)) = true
    ∧ (Char.ofNat ('0'.toNat + k)).toNat = '0'.toNat + k := by
  interval_cases k <;> exact ⟨by decide, by decide⟩

theorem natDigits_eq (n : Nat) :
    natDigits n = (if n < 10 then [] else natDigits (n / 10))
      ++ [Char.ofNat ('0'.toNat + n % 10)] := by
  rw [natDigits]
  by_cases h : n < 10
  · simp [h, Nat.mod_eq_of_lt h]
  · simp [h]

theorem natDigits_ne_nil (n : Nat) : natDigits n ≠ [] := by
  rw [natDigits_eq]
  simp

theorem natDigits_digits (n : Nat) : ∀ c ∈ natDigits n, isDigitChar c = true := by
  induction n using Nat.strongRecOn with
  | _ n ih =>
      rw [natDigits_eq]
      intro c hc
      rcases List.mem_append.mp hc with h1 | h2
      · by_cases h10 : n < 10
        · simp [h10] at h1
        · exact ih (n / 10) (Nat.div_lt_self (by omega) (by omega)) c
            (by simpa [h10] using h1)
      · rcases List.mem_singleton.mp h2 with rfl
        exact (digitChar_spec (n % 10) (Nat.mod_lt _ (by omega))).1

theorem natDigits_cons_digit (m : Nat) :
    ∃ c t, natDigits m = c :: t ∧ isDigitChar c = true := by
  cases hm : natDigits m with
  | nil => exact absurd hm (natDigits_ne_nil m)
  | cons c t => exact ⟨c, t, rfl, natDigits_digits m c (hm ▸ List.mem_cons_self ..)⟩

theorem digitsVal_natDigits (n : Nat) : digitsVal (natDigits n) = n := by
  induction n using Nat.strongRecOn with
  | _ n ih =>
      rw [natDigits_eq]
      by_cases h10 : n < 10
      · rw [if_pos h10, Nat.mod_eq_of_lt h10]
        simp only [List.nil_append, digitsVal, List.foldl_cons, List.foldl_nil]
        rw [(digitChar_spec n h10).2]
        omega
      · rw [if_neg h10]
        simp only [digitsVal, List.foldl_append, List.foldl_cons, List.foldl_nil]
        have hrec := ih (n / 10) (Nat.div_lt_self (by omega) (by omega))
        simp only [digitsVal] at hrec
        rw [hrec, (digitChar_spec (n % 10) (Nat.mod_lt _ (by omega))).2]
        omega

theorem digit_facts {c : Char} (h : isDigitChar c = true) :
    isJsonWs c = false ∧ c ≠ ']' ∧ c ≠ '}' ∧ c ≠ 'n' ∧ c ≠ 't' ∧ c ≠ 'f'
    ∧ c ≠ '"' ∧ c ≠ '[' ∧ c ≠ '{' ∧ c ≠ '-' := by
  refine ⟨?_, ?_, ?_, ?_, ?_, ?_, ?_, ?_, ?_, ?_⟩
  · by_contra hw
    rw [Bool.not_eq_false] at hw
    simp only [isJsonWs, Bool.or_eq_true, beq_iff_eq] at hw
    rcases hw with ((rfl | rfl) | rfl) | rfl <;> exact absurd h (by decide)
  all_goals
    intro hEq
    subst hEq
    exact absurd h (by decide)

theorem grabDigits_stop (cs : List Char) (h : noDigitHead cs = true) :
    grabDigits cs = ([], cs) := by
  cases cs with
  | nil => rfl
  | cons c t =>
      simp only [noDigitHead, Bool.not_eq_true'] at h
      simp [grabDigits, h]

theorem grabDigits_run (ds rest : List Char)
    (hds : ∀ c ∈ ds, isDigitChar c = true) (hrest : noDigitHead rest = true) :
    grabDigits (ds ++ rest) = (ds, rest) := by
  induction ds with
  | nil => simpa using grabDigits_stop rest hrest
  | cons c t ih =>
      have hc := hds c (by simp)
      simp [grabDigits, hc, ih fun x hx => hds x (by simp [hx])]

theorem hexDigitVal_hexDigitChar (k : Nat) (h : k < 16) :
    hexDigitVal (hexDigitChar k) = some k := by
  interval_cases k <;> decide

theorem hex4Val_hex4Chars (n : Nat) (h : n < 65536) :
    hex4Val (hexDigitChar (n / 4096 % 16)) (hexDigitChar (n / 256 % 16))
      (hexDigitChar (n / 16 % 16)) (hexDigitChar (n % 16)) = some n := by
  have h1 := hexDigitVal_hexDigitChar (n / 4096 % 16) (Nat.mod_lt _ (by omega))
  have h2 := hexDigitVal_hexDigitChar (n / 256 % 16) (Nat.mod_lt _ (by omega))
  have h3 := hexDigitVal_hexDigitChar (n / 16 % 16) (Nat.mod_lt _ (by omega))
  have h4 := hexDigitVal_hexDigitChar (n % 16) (Nat.mod_lt _ (by omega))
  simp only [hex4Val, h1, h2, h3, h4, Option.some.injEq]
  omega

theorem char_toNat_valid (c : Char) :
    c.toNat < 0xD800 ∨ (0xDFFF < c.toNat ∧ c.toNat < 0x110000) := by
  have h := c.valid
  unfold UInt32.isValidChar at h
  unfold Nat.isValidChar at h
  exact h

set_option maxHeartbeats 2000000 in
theorem parseStringBody_escapeChar (c : Char) (acc rest : List Char) :
    parseStringBody acc (escapeChar c ++ rest) = parseStringBody (c :: acc) rest := by
  unfold escapeChar
  split_ifs with h1 h2 h3 h4 h5 h6 h7 h8 h9
  · subst h1; rfl
  · subst h2; rfl
  · subst h3; rfl
  · subst h4; rfl
  · subst h5; rfl
  · have hc : c = Char.ofNat 8 := by rw [← h6, Char.ofNat_toNat]
    subst hc; rfl
  · have hc : c = Char.ofNat 12 := by rw [← h7, Char.ofNat_toNat]
    subst hc; rfl
  · rw [List.singleton_append, parseStringBody.eq_def]
    simp [h1, h2]
  · -- a BMP character outside printable ASCII: one \uXXXX escape
    have hv := char_toNat_valid c
    have hx := hex4Val_hex4Chars c.toNat h9
    simp only [hex4Chars] at hx ⊢
    simp only [List.cons_append, List.nil_append, parseStringBody, hx]
    rw [if_neg (by omega), if_neg (by omega), Char.ofNat_toNat]
  · -- an astral character: a surrogate pair
    have hv := char_toNat_valid c
    have hlow : 0x10000 ≤ c.toNat := by omega
    have hxhi := hex4Val_hex4Chars (0xD800 + (c.toNat - 0x10000) / 0x400) (by omega)
    have hxlo := hex4Val_hex4Chars (0xDC00 + (c.toNat - 0x10000) % 0x400)
      (by have := Nat.mod_lt (c.toNat - 0x10000) (y := 0x400) (by omega); omega)
    simp only [hex4Chars] at hxhi hxlo ⊢
    simp only [List.cons_append, List.nil_append, List.append_assoc, parseStringBody,
      hxhi]
    rw [if_pos (by omega)]
    simp only [hxlo]
    rw [if_pos (by omega)]
    have harith : 0x10000 + (0xD800 + (c.toNat - 0x10000) / 0x400 - 0xD800) * 0x400
        + (0xDC00 + (c.toNat - 0x10000) % 0x400 - 0xDC00) = c.toNat := by omega
    rw [harith, Char.ofNat_toNat]

theorem parseStringBody_flat (l : List Char) : ∀ acc rest : List Char,
    parseStringBody acc (l.flatMap escapeChar ++ '"' :: rest)
      = some (String.mk (acc.reverse ++ l), rest) := by
  induction l with
  | nil =>
      intro acc rest
      simp [parseStringBody]
  | cons c t ih =>
      intro acc rest
      rw [List.flatMap_cons, List.append_assoc, parseStringBody_escapeChar, ih]
      simp

theorem parseString_quote (s : String) (rest : List Char) :
    parseStringBody [] (s.data.flatMap escapeChar ++ '"' :: rest) = some (s, rest) := by
  have h := parseStringBody_flat s.data [] rest
  rw [List.reverse_nil, List.nil_append] at h
  exact h

theorem quoteString_append (s : String) (rest : List Char) :
    quoteString s ++ rest = '"' :: (s.data.flatMap escapeChar ++ '"' :: rest) := by
  simp [quoteString]

theorem intChars_head (n : Int) :
    ∃ c t, intChars n = c :: t ∧ (c = '-' ∨ isDigitChar c = true) := by
  by_cases hn : n < 0
  · exact ⟨'-', natDigits n.natAbs, by simp [intChars, hn], Or.inl rfl⟩
  · obtain ⟨c, t, hm, hc⟩ := natDigits_cons_digit n.natAbs
    exact ⟨c, t, by simp [intChars, hn, hm], Or.inr hc⟩

theorem dumpsVal_head (v : JValue) (lvl : Nat) :
    ∃ c t, dumpsVal v lvl = c :: t ∧ isJsonWs c = false ∧ c ≠ ']' ∧ c ≠ '}' := by
  cases v with
  | null =>
      exact ⟨'n', ['u', 'l', 'l'], by simp [dumpsVal], by decide, by decide, by decide⟩
  | bool b =>
      cases b with
      | true =>
          exact ⟨'t', ['r', 'u', 'e'], by simp [dumpsVal], by decide, by decide, by decide⟩
      | false =>
          exact ⟨'f', ['a', 'l', 's', 'e'], by simp [dumpsVal],
            by decide, by decide, by decide⟩
  | int n =>
      obtain ⟨c, t, hm, hc⟩ := intChars_head n
      rcases hc with rfl | hd
      · exact ⟨'-', t, by simp [dumpsVal, hm], by decide, by decide, by decide⟩
      · obtain ⟨hws, hbr, hbc, _⟩ := digit_facts hd
        exact ⟨c, t, by simp [dumpsVal, hm], hws, hbr, hbc⟩
  | str s =>
      exact ⟨'"', s.data.flatMap escapeChar ++ ['"'], by simp [dumpsVal, quoteString],
        by decide, by decide, by decide⟩
  | arr xs =>
      cases xs with
      | nil => exact ⟨'[', [']'], by simp [dumpsVal], by decide, by decide, by decide⟩
      | cons x t =>
          exact ⟨'[', '\n' :: (spaces (4 * (lvl + 1)) ++ (dumpsVal x (lvl + 1)
              ++ (dumpsItems t (lvl + 1) ++ '\n' :: (spaces (4 * lvl) ++ [']'])))),
            by simp [dumpsVal], by decide, by decide, by decide⟩
  | obj kvs =>
      cases kvs with
      | nil => exact ⟨'{', ['}'], by simp [dumpsVal], by decide, by decide, by decide⟩
      | cons kv t =>
          exact ⟨'{', '\n' :: (spaces (4 * (lvl + 1)) ++ (quoteString kv.1
              ++ ':' :: ' ' :: (dumpsVal kv.2 (lvl + 1) ++ (dumpsMembers t (lvl + 1)
                ++ '\n' :: (spaces (4 * lvl) ++ ['}']))))),
            by simp [dumpsVal], by decide, by decide, by decide⟩

theorem parseValue_int (n : Int) (f : Nat) (pre rest : List Char)
    (hpre : allWs pre = true) (hrest : noDigitHead rest = true) :
    parseValue (f + 1) (pre ++ (intChars n ++ rest)) = some (.int n, rest) := by
  obtain ⟨c0, t0, hm0, hc0⟩ := natDigits_cons_digit n.natAbs
  have hgrab : grabDigits (natDigits n.natAbs ++ rest) = (natDigits n.natAbs, rest) :=
    grabDigits_run _ _ (natDigits_digits _) hrest
  have hval : digitsVal (c0 :: t0) = n.natAbs := by
    rw [← hm0, digitsVal_natDigits]
  have hgrab2 : grabDigits (c0 :: (t0 ++ rest)) = (c0 :: t0, rest) := by
    rw [hm0] at hgrab
    simpa using hgrab
  by_cases hn : n < 0
  · have harg : pre ++ (intChars n ++ rest) = pre ++ ('-' :: (natDigits n.natAbs ++ rest)) := by
      simp [intChars, hn]
    rw [harg]
    simp only [parseValue]
    rw [allWs_append_elim _ _ hpre]
    have hneg : -(n.natAbs : Int) = n := by omega
    have hgrab3 : grabDigits (natDigits n.natAbs ++ rest) = (c0 :: t0, rest) := by
      rw [hm0]
      simpa using hgrab2
    simp [dropWs, isJsonWs, hgrab3, hval]
    rw [abs_of_neg hn, neg_neg]
  · obtain ⟨hws0, _, _, hn0, ht0c, hf0, hq0, hbk0, hbc0, hm0c⟩ := digit_facts hc0
    have harg : pre ++ (intChars n ++ rest) = pre ++ (c0 :: (t0 ++ rest)) := by
      simp [intChars, hn, hm0]
    rw [harg]
    simp only [parseValue]
    rw [allWs_append_elim _ _ hpre, dropWs_cons_nws hws0]
    have hpos : (n.natAbs : Int) = n := by omega
    simp [hn0, ht0c, hf0, hq0, hbk0, hbc0, hm0c, hc0, hgrab2, hval, hpos]

theorem noDigitHead_cons (c : Char) (t : List Char) :
    noDigitHead (c :: t) = !isDigitChar c := rfl

theorem noDigitHead_items (xs : List JValue) (lvl : Nat) (close : List Char)
    (hc : noDigitHead close = true) :
    noDigitHead (dumpsItems xs lvl ++ close) = true := by
  cases xs with
  | nil => simpa [dumpsItems] using hc
  | cons y ys =>
      simp only [dumpsItems, List.cons_append, noDigitHead_cons]
      decide

theorem noDigitHead_members (kvs : List (String × JValue)) (lvl : Nat)
    (close : List Char) (hc : noDigitHead close = true) :
    noDigitHead (dumpsMembers kvs lvl ++ close) = true := by
  cases kvs with
  | nil => simpa [dumpsMembers] using hc
  | cons kv t =>
      simp only [dumpsMembers, List.cons_append, noDigitHead_cons]
      decide

theorem allWs_nl_spaces (n : Nat) : allWs ('\n' :: spaces n) = true := by
  have h := spaces_allWs n
  simp only [allWs, List.all_cons, Bool.and_eq_true] at h ⊢
  exact ⟨by decide, h⟩

theorem dropWs_close_bracket (n : Nat) (rest : List Char) :
    dropWs ('\n' :: (spaces n ++ ']' :: rest)) = ']' :: rest := by
  rw [dropWs_newline, dropWs_spaces, dropWs_cons_nws (by decide)]

theorem dropWs_close_brace (n : Nat) (rest : List Char) :
    dropWs ('\n' :: (spaces n ++ '}' :: rest)) = '}' :: rest := by
  rw [dropWs_newline, dropWs_spaces, dropWs_cons_nws (by decide)]

theorem dropWs_comma (t : List Char) : dropWs (',' :: t) = ',' :: t :=
  dropWs_cons_nws (by decide) t

theorem dropWs_colon (t : List Char) : dropWs (':' :: t) = ':' :: t :=
  dropWs_cons_nws (by decide) t

theorem parseValue_arr_step (f : Nat) (pre r : List Char) (hpre : allWs pre = true) :
    parseValue (f + 1) (pre ++ '[' :: r)
      = (match dropWs r with
         | ']' :: r1 => some (.arr [], r1)
         | r1 =>
             match parseItems f r1 with
             | some (xs, r2) => some (.arr xs, r2)
             | none => none) := by
  simp only [parseValue]
  rw [allWs_append_elim _ _ hpre, dropWs_cons_nws (by decide)]
  rfl

theorem parseValue_obj_step (f : Nat) (pre r : List Char) (hpre : allWs pre = true) :
    parseValue (f + 1) (pre ++ '{' :: r)
      = (match dropWs r with
         | '}' :: r1 => some (.obj [], r1)
         | r1 =>
             match parseMembers f r1 with
             | some (ms, r2) => some (.obj ms, r2)
             | none => none) := by
  simp only [parseValue]
  rw [allWs_append_elim _ _ hpre, dropWs_cons_nws (by decide)]
  rfl

mutual
theorem rt_val : ∀ (v : JValue) (lvl fuel : Nat) (pre rest : List Char),
    allWs pre = true → noDigitHead rest = true →
    (dumpsVal v lvl).length < fuel →
    parseValue fuel (pre ++ (dumpsVal v lvl ++ rest)) = some (v, rest)
  | v, lvl, 0, pre, rest, hpre, hrest, hf => absurd hf (by omega)
  | .null, lvl, f + 1, pre, rest, hpre, hrest, hf => by
      have harg : pre ++ (dumpsVal .null lvl ++ rest)
          = pre ++ ('n' :: 'u' :: 'l' :: 'l' :: rest) := by simp [dumpsVal]
      rw [harg]
      simp only [parseValue]
      rw [allWs_append_elim _ _ hpre]
      simp [dropWs, isJsonWs]
  | .bool true, lvl, f + 1, pre, rest, hpre, hrest, hf => by
      have harg : pre ++ (dumpsVal (.bool true) lvl ++ rest)
          = pre ++ ('t' :: 'r' :: 'u' :: 'e' :: rest) := by simp [dumpsVal]
      rw [harg]
      simp only [parseValue]
      rw [allWs_append_elim _ _ hpre]
      simp [dropWs, isJsonWs]
  | .bool false, lvl, f + 1, pre, rest, hpre, hrest, hf => by
      have harg : pre ++ (dumpsVal (.bool false) lvl ++ rest)
          = pre ++ ('f' :: 'a' :: 'l' :: 's' :: 'e' :: rest) := by simp [dumpsVal]
      rw [harg]
      simp only [parseValue]
      rw [allWs_append_elim _ _ hpre]
      simp [dropWs, isJsonWs]
  | .int n, lvl, f + 1, pre, rest, hpre, hrest, hf => by
      have harg : pre ++ (dumpsVal (.int n) lvl ++ rest)
          = pre ++ (intChars n ++ rest) := by simp [dumpsVal]
      rw [harg]
      exact parseValue_int n f pre rest hpre hrest
  | .str s, lvl, f + 1, pre, rest, hpre, hrest, hf => by
      have harg : pre ++ (dumpsVal (.str s) lvl ++ rest)
          = pre ++ ('"' :: (s.data.flatMap escapeChar ++ '"' :: rest)) := by
        simp [dumpsVal, quoteString]
      rw [harg]
      simp only [parseValue]
      rw [allWs_append_elim _ _ hpre, dropWs_cons_nws (by decide)]
      simp [parseString_quote]
  | .arr [], lvl, f + 1, pre, rest, hpre, hrest, hf => by
      have harg : pre ++ (dumpsVal (.arr []) lvl ++ rest)
          = pre ++ ('[' :: ']' :: rest) := by simp [dumpsVal]
      rw [harg, parseValue_arr_step f pre _ hpre]
      simp [dropWs, isJsonWs]
  | .arr (x :: xs), lvl, f + 1, pre, rest, hpre, hrest, hf => by
      obtain ⟨c0, t0, hx0, hws0, hbr0, hbc0⟩ := dumpsVal_head x (lvl + 1)
      have harg : pre ++ (dumpsVal (.arr (x :: xs)) lvl ++ rest)
          = pre ++ ('[' :: ('\n' :: (spaces (4 * (lvl + 1)) ++ (dumpsVal x (lvl + 1)
              ++ (dumpsItems xs (lvl + 1)
                ++ '\n' :: (spaces (4 * lvl) ++ ']' :: rest)))))) := by
        simp [dumpsVal]
      rw [harg, parseValue_arr_step f pre _ hpre]
      have hdrop : dropWs ('\n' :: (spaces (4 * (lvl + 1)) ++ (dumpsVal x (lvl + 1)
          ++ (dumpsItems xs (lvl + 1) ++ '\n' :: (spaces (4 * lvl) ++ ']' :: rest)))))
          = c0 :: (t0 ++ (dumpsItems xs (lvl + 1)
              ++ '\n' :: (spaces (4 * lvl) ++ ']' :: rest))) := by
        rw [dropWs_newline, dropWs_spaces, hx0, List.cons_append,
          dropWs_cons_nws hws0]
      rw [hdrop]
      have hkey : parseItems f (dumpsVal x (lvl + 1) ++ (dumpsItems xs (lvl + 1)
          ++ ('\n' :: (spaces (4 * lvl) ++ ']' :: rest))))
          = some (x :: xs, rest) := by
        have := rt_items x xs (lvl + 1) f [] ('\n' :: (spaces (4 * lvl) ++ ']' :: rest))
          rest rfl (dropWs_close_bracket _ _) (by rw [noDigitHead_cons]; decide) (by
            have hlen : (dumpsVal (.arr (x :: xs)) lvl).length
                = 4 + 4 * (lvl + 1) + 4 * lvl + (dumpsVal x (lvl + 1)).length
                  + (dumpsItems xs (lvl + 1)).length := by
              simp [dumpsVal, spaces_length]
              omega
            omega)
        simpa using this
      simp [hbr0]
      rw [← List.cons_append, ← hx0, hkey]
  | .obj [], lvl, f + 1, pre, rest, hpre, hrest, hf => by
      have harg : pre ++ (dumpsVal (.obj []) lvl ++ rest)
          = pre ++ ('{' :: '}' :: rest) := by simp [dumpsVal]
      rw [harg, parseValue_obj_step f pre _ hpre]
      simp [dropWs, isJsonWs]
  | .obj ((k, v0) :: kvs), lvl, f + 1, pre, rest, hpre, hrest, hf => by
      have harg : pre ++ (dumpsVal (.obj ((k, v0) :: kvs)) lvl ++ rest)
          = pre ++ ('{' :: ('\n' :: (spaces (4 * (lvl + 1)) ++ (quoteString k
              ++ (':' :: ' ' :: (dumpsVal v0 (lvl + 1) ++ (dumpsMembers kvs (lvl + 1)
                ++ '\n' :: (spaces (4 * lvl) ++ '}' :: rest)))))))) := by
        simp [dumpsVal]
      rw [harg, parseValue_obj_step f pre _ hpre]
      have hdrop : dropWs ('\n' :: (spaces (4 * (lvl + 1)) ++ (quoteString k
          ++ (':' :: ' ' :: (dumpsVal v0 (lvl + 1) ++ (dumpsMembers kvs (lvl + 1)
            ++ '\n' :: (spaces (4 * lvl) ++ '}' :: rest)))))))
          = '"' :: (k.data.flatMap escapeChar ++ '"' :: (':' :: ' ' ::
              (dumpsVal v0 (lvl + 1) ++ (dumpsMembers kvs (lvl + 1)
                ++ '\n' :: (spaces (4 * lvl) ++ '}' :: rest))))) := by
        rw [dropWs_newline, dropWs_spaces, quoteString_append,
          dropWs_cons_nws (by decide)]
      rw [hdrop]
      have hkey : parseMembers f (quoteString k ++ (':' :: ' ' ::
          (dumpsVal v0 (lvl + 1) ++ (dumpsMembers kvs (lvl + 1)
            ++ ('\n' :: (spaces (4 * lvl) ++ '}' :: rest))))))
          = some ((k, v0) :: kvs, rest) := by
        have := rt_members k v0 kvs (lvl + 1) f []
          ('\n' :: (spaces (4 * lvl) ++ '}' :: rest)) rest
          rfl (dropWs_close_brace _ _) (by rw [noDigitHead_cons]; decide) (by
            have hlen : (dumpsVal (.obj ((k, v0) :: kvs)) lvl).length
                = 6 + 4 * (lvl + 1) + 4 * lvl + (quoteString k).length
                  + (dumpsVal v0 (lvl + 1)).length
                  + (dumpsMembers kvs (lvl + 1)).length := by
              simp [dumpsVal, spaces_length]
              omega
            omega)
        simpa using this
      rw [quoteString_append] at hkey
      simp [hkey]
termination_by v _ _ _ _ _ _ _ => sizeOf v
theorem rt_items : ∀ (x : JValue) (xs : List JValue) (lvl fuel : Nat)
    (pre close rest : List Char),
    allWs pre = true → dropWs close = ']' :: rest → noDigitHead close = true →
    (dumpsVal x lvl).length + (dumpsItems xs lvl).length + 1 < fuel →
    parseItems fuel (pre ++ (dumpsVal x lvl ++ (dumpsItems xs lvl ++ close)))
      = some (x :: xs, rest)
  | x, xs, lvl, 0, pre, close, rest, hpre, hclose, hnd, hf => absurd hf (by omega)
  | x, [], lvl, f + 1, pre, close, rest, hpre, hclose, hnd, hf => by
      have harg : pre ++ (dumpsVal x lvl ++ (dumpsItems [] lvl ++ close))
          = pre ++ (dumpsVal x lvl ++ close) := by simp [dumpsItems]
      have hv := rt_val x lvl f pre close hpre hnd (by omega)
      simp only [parseItems]
      rw [harg, hv]
      simp [hclose]
  | x, y :: ys, lvl, f + 1, pre, close, rest, hpre, hclose, hnd, hf => by
      have hrest1 : noDigitHead (dumpsItems (y :: ys) lvl ++ close) = true :=
        noDigitHead_items _ _ _ hnd
      have hv := rt_val x lvl f pre (dumpsItems (y :: ys) lvl ++ close) hpre hrest1
        (by omega)
      have harg2 : dumpsItems (y :: ys) lvl ++ close
          = ',' :: ('\n' :: (spaces (4 * lvl) ++ (dumpsVal y lvl
              ++ (dumpsItems ys lvl ++ close)))) := by
        simp [dumpsItems]
      have hkey : parseItems f ('\n' :: (spaces (4 * lvl) ++ (dumpsVal y lvl
          ++ (dumpsItems ys lvl ++ close)))) = some (y :: ys, rest) := by
        have := rt_items y ys lvl f ('\n' :: spaces (4 * lvl)) close rest
          (allWs_nl_spaces _) hclose hnd (by
            have hlen2 : (dumpsItems (y :: ys) lvl).length
                = 2 + 4 * lvl + (dumpsVal y lvl).length + (dumpsItems ys lvl).length := by
              simp [dumpsItems, spaces_length]
              omega
            omega)
        simpa using this
      simp only [parseItems]
      rw [hv, harg2]
      simp [dropWs_comma, hkey]
termination_by x xs _ _ _ _ _ _ _ _ _ => sizeOf x + sizeOf xs
theorem rt_members : ∀ (k : String) (v : JValue) (kvs : List (String × JValue))
    (lvl fuel : Nat) (pre close rest : List Char),
    allWs pre = true → dropWs close = '}' :: rest → noDigitHead close = true →
    (quoteString k).length + (dumpsVal v lvl).length
      + (dumpsMembers kvs lvl).length + 1 < fuel →
    parseMembers fuel (pre ++ (quoteString k ++ (':' :: ' ' :: (dumpsVal v lvl
      ++ (dumpsMembers kvs lvl ++ close))))) = some ((k, v) :: kvs, rest)
  | k, v, kvs, lvl, 0, pre, close, rest, hpre, hclose, hnd, hf => absurd hf (by omega)
  | k, v, [], lvl, f + 1, pre, close, rest, hpre, hclose, hnd, hf => by
      have hv := rt_val v lvl f [' '] (dumpsMembers [] lvl ++ close) (by decide)
        (by simpa [dumpsMembers] using hnd) (by omega)
      simp only [List.singleton_append] at hv
      have hdm : dumpsMembers ([] : List (String × JValue)) lvl ++ close = close := by
        simp [dumpsMembers]
      rw [hdm] at hv
      simp only [parseMembers]
      rw [allWs_append_elim _ _ hpre, quoteString_append, dropWs_cons_nws (by decide)]
      simp [parseString_quote, dropWs_colon, hv, hdm, hclose]
  | k, v, (k2, v2) :: kvs2, lvl, f + 1, pre, close, rest, hpre, hclose, hnd, hf => by
      have hrest1 : noDigitHead (dumpsMembers ((k2, v2) :: kvs2) lvl ++ close) = true :=
        noDigitHead_members _ _ _ hnd
      have hv := rt_val v lvl f [' ']
        (dumpsMembers ((k2, v2) :: kvs2) lvl ++ close) (by decide) hrest1 (by omega)
      simp only [List.singleton_append] at hv
      have harg2 : dumpsMembers ((k2, v2) :: kvs2) lvl ++ close
          = ',' :: ('\n' :: (spaces (4 * lvl) ++ (quoteString k2 ++ (':' :: ' ' ::
              (dumpsVal v2 lvl ++ (dumpsMembers kvs2 lvl ++ close)))))) := by
        simp [dumpsMembers]
      have hkey : parseMembers f ('\n' :: (spaces (4 * lvl) ++ (quoteString k2
          ++ (':' :: ' ' :: (dumpsVal v2 lvl ++ (dumpsMembers kvs2 lvl ++ close))))))
          = some ((k2, v2) :: kvs2, rest) := by
        have := rt_members k2 v2 kvs2 lvl f ('\n' :: spaces (4 * lvl)) close rest
          (allWs_nl_spaces _) hclose hnd (by
            have hlen2 : (dumpsMembers ((k2, v2) :: kvs2) lvl).length
                = 4 + 4 * lvl + (quoteString k2).length + (dumpsVal v2 lvl).length
                  + (dumpsMembers kvs2 lvl).length := by
              simp [dumpsMembers, spaces_length]
              omega
            omega)
        simpa using this
      rw [harg2] at hv
      simp only [parseMembers]
      rw [allWs_append_elim _ _ hpre, quoteString_append, dropWs_cons_nws (by decide)]
      simp [parseString_quote, dropWs_colon, hv, harg2, dropWs_comma, hkey]
termination_by k v kvs _ _ _ _ _ _ _ _ _ => sizeOf v + sizeOf kvs
end

/-- Dumping any JSON value with `json_dumps_indent4` and parsing the result
back recovers the value exactly. -/
theorem parseJson_dumps (v : JValue) : parseJson (json_dumps_indent4 v) = some v := by
  have h := rt_val v 0 ((dumpsVal v 0).length + 1) [] [] rfl rfl (by omega)
  simp only [List.nil_append, List.append_nil] at h
  unfold parseJson json_dumps_indent4
  rw [show (String.mk (dumpsVal v 0)).data = dumpsVal v 0 from rfl, h]
  rfl

/-- C8: in the chat path, a mapping text result is rendered as a fenced JSON
code block — the literal fence header, the field-serialized mapping dumped as
indent-4 JSON, and the closing fence — which becomes both the returned message
and the stored artifact message; and parsing the block's inner content as JSON
yields exactly the field-serialized mapping. -/
theorem c8_codeblock_roundtrip (v : Vertex) (g : Graph)
    (kvs : List (String × PyVal))
    (ht : lookupBy v.results "message" = some (.pyDict kvs)) :
    (∃ v1, _process_chat_component v g
        = .ok (v1, .pyStr (dict_to_codeblock kvs))
      ∧ artifactEntry v1 "message" = some (.pyStr (dict_to_codeblock kvs)))
    ∧ dict_to_codeblock kvs
        = "```json\n" ++ json_dumps_indent4 (.obj (serialize_fieldPairs kvs))
          ++ "\n```"
    ∧ parseJson (json_dumps_indent4 (.obj (serialize_fieldPairs kvs)))
        = some (.obj (serialize_fieldPairs kvs)) := by
  refine ⟨⟨{ v with
      will_stream := false
      artifacts := (ChatOutputResponse.mk
        (.pyStr (dict_to_codeblock kvs))
        (lookupByD v.params "sender" .pyNone)
        (lookupByD v.params "sender_name" .pyNone)
        .pyNone
        (normalize_files (lookupByD v.params "files" (.pyList [])))
        .OBJECT).model_dump_exclude_none }, ?_, ?_⟩, rfl, parseJson_dumps _⟩
  · simp [_process_chat_component, ht]
  · simp [artifactEntry, ChatOutputResponse.model_dump_exclude_none,
      ChatOutputResponse.fields, List.filter_cons, PyVal.isNone, lookupBy,
      List.find?]

/-- Witness: on the spec's example mapping `["a": 1, "b": "x"]`, the chat path
returns the fenced code block and parsing its inner JSON recovers the
serialized mapping. -/
theorem c8_codeblock_roundtrip_witness :
    lookupBy wChatDict.results "message"
        = some (.pyDict [("a", PyVal.pyInt 1), ("b", PyVal.pyStr "x")])
    ∧ ((∃ v1, _process_chat_component wChatDict wGraph
          = .ok (v1, .pyStr (dict_to_codeblock
              [("a", PyVal.pyInt 1), ("b", PyVal.pyStr "x")]))
        ∧ artifactEntry v1 "message" = some (.pyStr (dict_to_codeblock
              [("a", PyVal.pyInt 1), ("b", PyVal.pyStr "x")])))
      ∧ dict_to_codeblock [("a", PyVal.pyInt 1), ("b", PyVal.pyStr "x")]
          = "```json\n" ++ json_dumps_indent4 (.obj (serialize_fieldPairs
              [("a", PyVal.pyInt 1), ("b", PyVal.pyStr "x")])) ++ "\n```"
      ∧ parseJson (json_dumps_indent4 (.obj (serialize_fieldPairs
            [("a", PyVal.pyInt 1), ("b", PyVal.pyStr "x")])))
          = some (.obj (serialize_fieldPairs
              [("a", PyVal.pyInt 1), ("b", PyVal.pyStr "x")]))) :=
  ⟨rfl, c8_codeblock_roundtrip wChatDict wGraph
    [("a", PyVal.pyInt 1), ("b", PyVal.pyStr "x")] rfl⟩

end Langflow
